import Mathlib

/-!
Verification development for the apex-game repository.

The repository contains two canvas arcade games written in TypeScript/React:

* a maze-chase game (PacmanGame): an actor moves among static barriers,
  eats cherries, avoids three ghosts, and can eat a power item ("apex")
  that makes the ghosts vulnerable for ten seconds;
* a flight game (FlappyGame): a bird falls under gravity, flaps upward,
  and scores one point per pipe pair whose trailing edge passes the bird.

The definitions below are a shallow embedding of the per-frame update
logic of both games.  Continuous quantities (positions, velocities,
distances) are real numbers; wall-clock timestamps (milliseconds) are
integers; scores are integers.  Every call the source makes to the
random generator is modelled as an explicit input: the outcome of each
draw is a parameter of the update function, so the update is a pure
function of the state, the clock readings, and the drawn values.  The
source reads the wall clock several times inside one frame
(Date.now at the start of the update and twice more inside the apex
capture branch); each of those reads is likewise a separate parameter.
-/

open Classical

noncomputable section

namespace Maze

/-- Axis-aligned box, as in the barrier records of the source
(fields x, y, w, h). -/
structure Box where
  x : ℝ
  y : ℝ
  w : ℝ
  h : ℝ

/-- The strict-inequality box overlap test.  This is the predicate
inlined in collidesBarrier in the source:
x < b.x + b.w and x + size > b.x and y < b.y + b.h and y + size > b.y,
stated for two arbitrary boxes. -/
def overlaps (a b : Box) : Prop :=
  a.x < b.x + b.w ∧ a.x + a.w > b.x ∧ a.y < b.y + b.h ∧ a.y + a.h > b.y

/-- Canvas width (px). -/
def width : ℝ := 500
/-- Canvas height (px). -/
def height : ℝ := 500
/-- Actor sprite size (px). -/
def PAC_SIZE : ℝ := 34
/-- Ghost sprite size (px). -/
def GHOST_SIZE : ℝ := 34
/-- Cherry sprite size (px). -/
def CHERRY_SIZE : ℝ := 26
/-- Apex power-item sprite size (px). -/
def APEX_SIZE : ℝ := 36
/-- Actor speed (px per frame). -/
def PAC_SPEED : ℝ := 3.2
/-- Ghost speed (px per frame). -/
def GHOST_SPEED : ℝ := 2.0
/-- Chase radius for ghost steering (px). -/
def CHASE_RADIUS : ℝ := 150
/-- Number of ghosts. -/
def NUM_GHOSTS : ℕ := 3

/-- The twelve static barriers of the maze, in source order: the four
sides of the central hoop, the two side bars, the top and bottom bars,
and the four 10 px frame walls. -/
def barriers : List Box :=
  [ { x := width / 2 - 60, y := height / 2 - 120, w := 120, h := 10 },
    { x := width / 2 - 60, y := height / 2 + 100, w := 120, h := 10 },
    { x := width / 2 - 120, y := height / 2 - 60, w := 10, h := 120 },
    { x := width / 2 + 110, y := height / 2 - 60, w := 10, h := 120 },
    { x := 50, y := 150, w := 10, h := 200 },
    { x := width - 60, y := 150, w := 10, h := 200 },
    { x := 150, y := 40, w := 200, h := 10 },
    { x := 150, y := height - 70, w := 200, h := 10 },
    { x := 0, y := 0, w := width, h := 10 },
    { x := 0, y := height - 10, w := width, h := 10 },
    { x := 0, y := 0, w := 10, h := height },
    { x := width - 10, y := 0, w := 10, h := height } ]

/-- collidesBarrier from the source: does the size-by-size box at
(x, y) overlap some barrier? -/
def collidesBarrier (x y size : ℝ) : Prop :=
  ∃ b ∈ barriers, overlaps { x := x, y := y, w := size, h := size } b

/-- The actor record (the pacman ref of the source). -/
structure Pac where
  x : ℝ
  y : ℝ
  dx : ℝ
  dy : ℝ

/-- Ghost record.  eatenUntil is the timestamp until which the ghost is
hidden after being eaten (the spec calls this field hiddenUntil). -/
structure Ghost where
  x : ℝ
  y : ℝ
  dx : ℝ
  dy : ℝ
  vulnerableUntil : ℤ
  eatenUntil : ℤ

/-- Math.hypot. -/
def hypot (a b : ℝ) : ℝ := Real.sqrt (a ^ 2 + b ^ 2)

/-- Math.atan2 y x, modelled as the principal argument of x + y i. -/
def atan2 (y x : ℝ) : ℝ := Complex.arg { re := x, im := y }

/-- Actor movement with barrier check (source lines: add velocity to
position, then revert the move and zero the velocity if the new
position hits a barrier). -/
def pacMove (p : Pac) : Pac :=
  if collidesBarrier (p.x + p.dx) (p.y + p.dy) PAC_SIZE then
    { x := p.x, y := p.y, dx := 0, dy := 0 }
  else
    { x := p.x + p.dx, y := p.y + p.dy, dx := p.dx, dy := p.dy }

/-- The unconditional frame-wall clamp applied to the actor after the
barrier check: four sequential ifs keeping x and y within
[10, width - PAC_SIZE - 10] and [10, height - PAC_SIZE - 10]. -/
def clampPac (p : Pac) : Pac :=
  let x1 := if p.x < 10 then 10 else p.x
  let x2 := if x1 > width - PAC_SIZE - 10 then width - PAC_SIZE - 10 else x1
  let y1 := if p.y < 10 then 10 else p.y
  let y2 := if y1 > height - PAC_SIZE - 10 then height - PAC_SIZE - 10 else y1
  { x := x2, y := y2, dx := p.dx, dy := p.dy }

/-- Canvas-edge bounce, coordinate part: clamp v into [0, hi]. -/
def bounceCoord (hi v : ℝ) : ℝ :=
  if v < 0 then 0 else if v > hi then hi else v

/-- Canvas-edge bounce, velocity part: negate d when the coordinate was
clamped at either edge. -/
def bounceVel (hi v d : ℝ) : ℝ :=
  if v < 0 then -d else if v > hi then -d else d

/-- Ghost steering (source: chase the actor when within CHASE_RADIUS
and not vulnerable, otherwise change to a random heading with
probability 0.02).  x3 y3 is the ghost position after this frame's
movement, dx3 dy3 its velocity after bounces and barrier reverts;
r is the Math.random draw compared against 0.02 and ang the random
angle drawn for the wander direction. -/
def steer (pac : Pac) (now vulnerableUntil : ℤ) (r ang x3 y3 dx3 dy3 : ℝ) : ℝ × ℝ :=
  if hypot (pac.x - x3) (pac.y - y3) < CHASE_RADIUS ∧ vulnerableUntil ≤ now then
    (Real.cos (atan2 (pac.y - y3) (pac.x - x3)) * GHOST_SPEED,
     Real.sin (atan2 (pac.y - y3) (pac.x - x3)) * GHOST_SPEED)
  else if r < 0.02 then
    (Real.cos ang * GHOST_SPEED, Real.sin ang * GHOST_SPEED)
  else (dx3, dy3)

/-- One frame of ghost movement: skip when hidden, else integrate
velocity, bounce off the canvas edges, revert the move (negating both
velocity components) on barrier contact, then steer.  The two branches
of the barrier check are written out so that each field mirrors the
corresponding mutation of the source. -/
def ghostMove (pac : Pac) (now : ℤ) (r ang : ℝ) (g : Ghost) : Ghost :=
  if now < g.eatenUntil then g
  else
    let x2 := bounceCoord (width - GHOST_SIZE) (g.x + g.dx)
    let y2 := bounceCoord (height - GHOST_SIZE) (g.y + g.dy)
    let dx2 := bounceVel (width - GHOST_SIZE) (g.x + g.dx) g.dx
    let dy2 := bounceVel (height - GHOST_SIZE) (g.y + g.dy) g.dy
    if collidesBarrier x2 y2 GHOST_SIZE then
      { x := g.x, y := g.y,
        dx := (steer pac now g.vulnerableUntil r ang g.x g.y (-dx2) (-dy2)).1,
        dy := (steer pac now g.vulnerableUntil r ang g.x g.y (-dx2) (-dy2)).2,
        vulnerableUntil := g.vulnerableUntil, eatenUntil := g.eatenUntil }
    else
      { x := x2, y := y2,
        dx := (steer pac now g.vulnerableUntil r ang x2 y2 dx2 dy2).1,
        dy := (steer pac now g.vulnerableUntil r ang x2 y2 dx2 dy2).2,
        vulnerableUntil := g.vulnerableUntil, eatenUntil := g.eatenUntil }

/-- Circular cherry capture test (center distance below the mean of the
two sprite sizes). -/
def cherryHit (pac : Pac) (c : ℝ × ℝ) : Prop :=
  hypot ((pac.x + PAC_SIZE / 2) - (c.1 + CHERRY_SIZE / 2))
        ((pac.y + PAC_SIZE / 2) - (c.2 + CHERRY_SIZE / 2))
    < (PAC_SIZE + CHERRY_SIZE) / 2

/-- Cherry phase: drop every cherry within capture distance, then top
the pool back up to five positions drawn from the spawn stream (the
values returned by randomPos in the source).  Returns the new pool and
the number of cherries eaten (each adds one point). -/
def cherryPhase (pac : Pac) (spawnC : ℕ → ℝ × ℝ) (cherries : List (ℝ × ℝ)) :
    List (ℝ × ℝ) × ℕ :=
  let remaining := cherries.filter (fun c => decide (¬ cherryHit pac c))
  (remaining ++ (List.range (5 - remaining.length)).map spawnC,
   cherries.length - remaining.length)

/-- Apex capture test. -/
def apexHit (pac : Pac) (a : ℝ × ℝ) : Prop :=
  hypot (pac.x + PAC_SIZE / 2 - (a.1 + APEX_SIZE / 2))
        (pac.y + PAC_SIZE / 2 - (a.2 + APEX_SIZE / 2))
    < (PAC_SIZE + APEX_SIZE) / 2

/-- Apex capture phase.  a1 and a2 are the two fresh Date.now() reads
the source performs inside the capture branch (respawn schedule and
vulnerability window).  On capture the item is cleared, its respawn is
scheduled at a1 + 15000 and every ghost becomes vulnerable until
a2 + 10000. -/
def apexPhase (pac : Pac) (a1 a2 : ℤ) (apex : Option (ℝ × ℝ)) (respawnAt : ℤ)
    (ghosts : List Ghost) : Option (ℝ × ℝ) × ℤ × List Ghost :=
  match apex with
  | some a =>
      if apexHit pac a then
        (none, a1 + 15000,
         ghosts.map (fun g =>
           { x := g.x, y := g.y, dx := g.dx, dy := g.dy,
             vulnerableUntil := a2 + 10000, eatenUntil := g.eatenUntil }))
      else (some a, respawnAt, ghosts)
  | none => (none, respawnAt, ghosts)

/-- Apex respawn check: when the item is absent and now is past the
scheduled respawn time, place it at the drawn spawn position. -/
def apexRespawn (now : ℤ) (spawnA : ℝ × ℝ) (apex : Option (ℝ × ℝ)) (respawnAt : ℤ) :
    Option (ℝ × ℝ) :=
  match apex with
  | none => if now > respawnAt then some spawnA else none
  | some a => some a

/-- Ghost/actor contact test (center distance below the mean sprite
size). -/
def ghostContact (pac : Pac) (g : Ghost) : Prop :=
  hypot (pac.x + PAC_SIZE / 2 - (g.x + GHOST_SIZE / 2))
        (pac.y + PAC_SIZE / 2 - (g.y + GHOST_SIZE / 2))
    < (PAC_SIZE + GHOST_SIZE) / 2

/-- The fatal-contact condition: a non-hidden, non-vulnerable ghost in
contact with the actor. -/
def ghostFatal (pac : Pac) (now : ℤ) (g : Ghost) : Prop :=
  ¬ now < g.eatenUntil ∧ ghostContact pac g ∧ ¬ now < g.vulnerableUntil

/-- The capture condition: a non-hidden, vulnerable ghost in contact
with the actor (the actor eats it). -/
def ghostEaten (pac : Pac) (now : ℤ) (g : Ghost) : Prop :=
  ¬ now < g.eatenUntil ∧ ghostContact pac g ∧ now < g.vulnerableUntil

/-- Per-ghost collision handler (source: skip hidden ghosts; on contact
check vulnerability first: a vulnerable ghost is eaten — ten points,
hidden for 2000 ms, teleported to the canvas center, velocity reset to
a fresh random heading at GHOST_SPEED — otherwise the game ends).
Returns the updated ghost, the score delta, and the game-over flag. -/
def ghostCollide (pac : Pac) (now : ℤ) (ang : ℝ) (g : Ghost) : Ghost × ℕ × Bool :=
  if now < g.eatenUntil then (g, 0, false)
  else if ghostContact pac g then
    if now < g.vulnerableUntil then
      ({ x := width / 2 - GHOST_SIZE / 2, y := height / 2 - GHOST_SIZE / 2,
         dx := Real.cos ang * GHOST_SPEED, dy := Real.sin ang * GHOST_SPEED,
         vulnerableUntil := g.vulnerableUntil, eatenUntil := now + 2000 },
       10, false)
    else (g, 0, true)
  else (g, 0, false)

/-- forEach over a list, feeding each element its index so that every
element receives its own random draws. -/
def mapWithIndex (f : ℕ → α → β) : ℕ → List α → List β
  | _, [] => []
  | i, a :: l => f i a :: mapWithIndex f (i + 1) l

/-- Ghost collision phase over the whole ghost list: updated ghosts,
total score delta, and whether some contact was fatal. -/
def ghostCollidePhase (pac : Pac) (now : ℤ) (ang : ℕ → ℝ) (gs : List Ghost) :
    List Ghost × ℕ × Bool :=
  let results := mapWithIndex (fun i g => ghostCollide pac now (ang i) g) 0 gs
  (results.map (fun t => t.1), (results.map (fun t => t.2.1)).sum,
   results.any (fun t => t.2.2))

/-- The random draws consumed by one frame, as explicit inputs: r i and
ang i are the wander draws of ghost i, eatAng i the heading drawn when
ghost i is eaten, spawnC the cherry respawn positions and spawnA the
apex respawn position (values produced by randomPos). -/
structure RIn where
  r : ℕ → ℝ
  ang : ℕ → ℝ
  eatAng : ℕ → ℝ
  spawnC : ℕ → ℝ × ℝ
  spawnA : ℝ × ℝ

/-- Whole game state of the maze variant. -/
structure State where
  pac : Pac
  ghosts : List Ghost
  cherries : List (ℝ × ℝ)
  apex : Option (ℝ × ℝ)
  apexRespawnAt : ℤ
  score : ℤ
  gameOver : Bool
  started : Bool

/-- One frame of the maze update while the game is running, in source
order: actor move and clamp, ghost movement and steering, cherry
capture and top-up, apex capture (with its two fresh clock reads a1 and
a2), apex respawn check, ghost collisions.  now is the Date.now() read
at the start of the update. -/
def tick (s : State) (now a1 a2 : ℤ) (ri : RIn) : State :=
  let pac1 := clampPac (pacMove s.pac)
  let ghosts1 := mapWithIndex (fun i g => ghostMove pac1 now (ri.r i) (ri.ang i) g) 0 s.ghosts
  let cherryR := cherryPhase pac1 ri.spawnC s.cherries
  let apexR := apexPhase pac1 a1 a2 s.apex s.apexRespawnAt ghosts1
  let apex2 := apexRespawn now ri.spawnA apexR.1 apexR.2.1
  let collideR := ghostCollidePhase pac1 now ri.eatAng apexR.2.2
  { pac := pac1, ghosts := collideR.1, cherries := cherryR.1,
    apex := apex2, apexRespawnAt := apexR.2.1,
    score := s.score + (cherryR.2 : ℤ) + (collideR.2.1 : ℤ),
    gameOver := s.gameOver || collideR.2.2, started := s.started }

/-- The lifecycle state machine, derived from the two React flags. -/
inductive Lifecycle where
  | Idle
  | Running
  | Ended
deriving DecidableEq

/-- Lifecycle from the started and gameOver flags. -/
def lifecycle (started gameOver : Bool) : Lifecycle :=
  if gameOver then .Ended else if started then .Running else .Idle

/-- spawnGhosts: NUM_GHOSTS fresh ghosts at drawn positions with drawn
headings at GHOST_SPEED, both timers cleared to 0. -/
def spawnGhosts (gpos : ℕ → ℝ × ℝ) (gang : ℕ → ℝ) : List Ghost :=
  (List.range NUM_GHOSTS).map (fun i =>
    { x := (gpos i).1, y := (gpos i).2,
      dx := Real.cos (gang i) * GHOST_SPEED, dy := Real.sin (gang i) * GHOST_SPEED,
      vulnerableUntil := 0, eatenUntil := 0 })

/-- spawnCherries: five cherries at drawn positions. -/
def spawnCherries (cpos : ℕ → ℝ × ℝ) : List (ℝ × ℝ) :=
  (List.range 5).map cpos

/-- resetGame from the source: actor back to the canvas center with
zero velocity, ghosts and cherries respawned, score zeroed, flags
cleared.  The apex item and its pending respawn timestamp are not
touched. -/
def resetGame (s : State) (gpos : ℕ → ℝ × ℝ) (gang : ℕ → ℝ) (cpos : ℕ → ℝ × ℝ) : State :=
  { pac := { x := width / 2, y := height / 2, dx := 0, dy := 0 },
    ghosts := spawnGhosts gpos gang,
    cherries := spawnCherries cpos,
    apex := s.apex, apexRespawnAt := s.apexRespawnAt,
    score := 0, gameOver := false, started := false }

/-- Key intents. -/
inductive Key where
  | up
  | down
  | left
  | right
  | other

/-- The keydown handler: any key starts an idle game; any key on a
finished game resets and restarts; otherwise the movement keys set the
actor velocity to PAC_SPEED along one axis. -/
def handleKey (k : Key) (s : State) (gpos : ℕ → ℝ × ℝ) (gang : ℕ → ℝ)
    (cpos : ℕ → ℝ × ℝ) : State :=
  let s1 := if s.started = false ∧ s.gameOver = false then
    { s with started := true } else s
  if s1.gameOver then { resetGame s1 gpos gang cpos with started := true }
  else
    match k with
    | .up => { s1 with pac := { x := s1.pac.x, y := s1.pac.y, dx := 0, dy := -PAC_SPEED } }
    | .down => { s1 with pac := { x := s1.pac.x, y := s1.pac.y, dx := 0, dy := PAC_SPEED } }
    | .left => { s1 with pac := { x := s1.pac.x, y := s1.pac.y, dx := -PAC_SPEED, dy := 0 } }
    | .right => { s1 with pac := { x := s1.pac.x, y := s1.pac.y, dx := PAC_SPEED, dy := 0 } }
    | .other => s1

/-- The mousedown handler: start when idle, reset and restart when
finished. -/
def handleClick (s : State) (gpos : ℕ → ℝ × ℝ) (gang : ℕ → ℝ)
    (cpos : ℕ → ℝ × ℝ) : State :=
  if s.started = false then { s with started := true }
  else if s.gameOver then { resetGame s gpos gang cpos with started := true }
  else s

/-- randomPos, fuel-bounded: the source keeps drawing candidate
positions in a do-while loop until one misses every barrier.  cand is
the stream of drawn candidates starting at index k; the fuel argument
bounds how many candidates may be inspected, and exhausting it yields
none — the source itself has no such bound and no fallback, so none
models the loop still running. -/
def randomPosAux (size : ℝ) (cand : ℕ → ℝ × ℝ) (k : ℕ) : ℕ → Option (ℝ × ℝ)
  | 0 => none
  | n + 1 =>
      if collidesBarrier (cand k).1 (cand k).2 size then
        randomPosAux size cand (k + 1) n
      else some (cand k)

/-- randomPos on the candidate stream, starting at the first draw. -/
def randomPosFuel (size : ℝ) (cand : ℕ → ℝ × ℝ) (fuel : ℕ) : Option (ℝ × ℝ) :=
  randomPosAux size cand 0 fuel

end Maze

namespace Flight

/-- Canvas width (px). -/
def width : ℚ := 400
/-- Canvas height (px). -/
def height : ℚ := 600
/-- Bird radius (px). -/
def birdRadius : ℚ := 12
/-- Gravity (px per frame per frame). -/
def gravity : ℚ := 0.35
/-- Upward velocity impulse of a flap. -/
def flapStrength : ℚ := -6
/-- Pipe width (px). -/
def pipeWidth : ℚ := 50
/-- Height of the gap between a pipe pair (px). -/
def gapHeight : ℚ := 140
/-- Leftward pipe speed (px per frame). -/
def pipeSpeed : ℚ := 1.5

/-- A pipe pair: horizontal position, vertical gap offset, and the
monotone scored flag. -/
structure Pipe where
  x : ℚ
  gapY : ℚ
  scored : Bool

/-- Per-pipe part of the update loop: move the pipe left by pipeSpeed,
then set the scored flag when the unscored pipe has its trailing edge
strictly left of the bird position width / 4. -/
def stepPipe (p : Pipe) : Pipe :=
  if p.scored = false ∧ p.x - pipeSpeed + pipeWidth < width / 4 then
    { x := p.x - pipeSpeed, gapY := p.gapY, scored := true }
  else
    { x := p.x - pipeSpeed, gapY := p.gapY, scored := p.scored }

/-- Score contribution of one pipe in one frame: one exactly when the
scored flag flips this frame. -/
def pipeInc (p : Pipe) : ℕ :=
  if p.scored = false ∧ p.x - pipeSpeed + pipeWidth < width / 4 then 1 else 0

/-- Whole game state of the flight variant. -/
structure FState where
  birdY : ℚ
  velocity : ℚ
  pipes : List Pipe
  frame : ℕ
  score : ℤ
  gameOver : Bool
  started : Bool

/-- The pipe list after the periodic spawn: every 90th frame a new pair
enters at the right edge with a drawn gap offset and a cleared scored
flag. -/
def pipesAfterSpawn (s : FState) (gap : ℚ) : List Pipe :=
  if s.frame % 90 = 0 then s.pipes ++ [{ x := width, gapY := gap, scored := false }]
  else s.pipes

/-- Bird/pipe collision test of the source, against the moved pipe. -/
def hitPipeTest (birdY : ℚ) (p : Pipe) : Bool :=
  let birdX := width / 4
  if birdX + birdRadius > p.x ∧ birdX - birdRadius < p.x + pipeWidth then
    decide (¬ (birdY - birdRadius > p.gapY ∧ birdY + birdRadius < p.gapY + gapHeight))
  else false

/-- One frame of the flight update while the game is running, in source
order: gravity into velocity, velocity into position, periodic pipe
spawn, frame count, pipe movement and edge-triggered scoring, off-screen
removal, then ground, ceiling and pipe collision checks. -/
def flightTick (s : FState) (gap : ℚ) : FState :=
  let v := s.velocity + gravity
  let y := s.birdY + v
  let pipes1 := pipesAfterSpawn s gap
  let pipes2 := pipes1.map stepPipe
  let score1 := s.score + ((pipes1.map pipeInc).sum : ℤ)
  let pipes3 := pipes2.filter (fun p => decide (p.x + pipeWidth > 0))
  let dead := decide (y + birdRadius > height) || decide (y - birdRadius < 0)
    || pipes3.any (hitPipeTest y)
  { birdY := y, velocity := v, pipes := pipes3, frame := s.frame + 1,
    score := score1, gameOver := s.gameOver || dead, started := s.started }

/-- resetGame of the flight variant: bird back to mid-height with zero
velocity, pipes cleared, score zeroed, frame counter zeroed. -/
def fresetGame (s : FState) : FState :=
  { birdY := height / 2, velocity := 0, pipes := [], frame := 0,
    score := 0, gameOver := false, started := s.started }

/-- The flap intent: start when idle; reset and restart when finished
(without flapping); otherwise set the velocity to flapStrength. -/
def flap (s : FState) : FState :=
  let s1 := if s.started = false then { s with started := true } else s
  if s1.gameOver then { fresetGame s1 with started := true }
  else { s1 with velocity := flapStrength }

end Flight

/-! ## Helper lemmas -/

/-- The clamp keeps both actor coordinates inside the frame interior,
whatever its input. -/
lemma clampPac_bounds (p : Maze.Pac) :
    10 ≤ (Maze.clampPac p).x ∧ (Maze.clampPac p).x ≤ Maze.width - Maze.PAC_SIZE - 10 ∧
    10 ≤ (Maze.clampPac p).y ∧ (Maze.clampPac p).y ≤ Maze.height - Maze.PAC_SIZE - 10 := by
  unfold Maze.clampPac
  simp only [Maze.width, Maze.height, Maze.PAC_SIZE]
  split_ifs <;> refine ⟨by linarith, by linarith, by linarith, by linarith⟩

/-- The actor field of a tick is the clamped moved actor. -/
lemma tick_pac (s : Maze.State) (now a1 a2 : ℤ) (ri : Maze.RIn) :
    (Maze.tick s now a1 a2 ri).pac = Maze.clampPac (Maze.pacMove s.pac) := rfl

/-- The origin collides with the top frame wall at cherry size. -/
lemma collides_origin_cherry : Maze.collidesBarrier 0 0 Maze.CHERRY_SIZE := by
  refine ⟨{ x := 0, y := 0, w := Maze.width, h := 10 }, ?_, ?_⟩
  · simp [Maze.barriers]
  · unfold Maze.overlaps
    norm_num [Maze.width, Maze.CHERRY_SIZE]

/-- A constant colliding candidate stream defeats every fuel bound. -/
lemma randomPosAux_stuck (fuel k : ℕ) :
    Maze.randomPosAux Maze.CHERRY_SIZE (fun _ => ((0 : ℝ), (0 : ℝ))) k fuel = none := by
  induction fuel generalizing k with
  | zero => rfl
  | succ n ih =>
      unfold Maze.randomPosAux
      rw [if_pos collides_origin_cherry]
      exact ih (k + 1)

/-- Whatever randomPos returns is barrier-free. -/
lemma randomPosAux_sound (size : ℝ) (cand : ℕ → ℝ × ℝ) :
    ∀ (fuel k : ℕ) (p : ℝ × ℝ), Maze.randomPosAux size cand k fuel = some p →
      ¬ Maze.collidesBarrier p.1 p.2 size := by
  intro fuel
  induction fuel with
  | zero => intro k p h; exact absurd h (by simp [Maze.randomPosAux])
  | succ n ih =>
      intro k p h
      unfold Maze.randomPosAux at h
      by_cases hc : Maze.collidesBarrier (cand k).1 (cand k).2 size
      · rw [if_pos hc] at h
        exact ih (k + 1) p h
      · rw [if_neg hc] at h
        obtain rfl : cand k = p := by simpa using h
        exact hc

/-- With a barrier-free candidate inside the fuel window, randomPos
returns some position. -/
lemma randomPosAux_terminates (size : ℝ) (cand : ℕ → ℝ × ℝ) :
    ∀ (fuel k : ℕ), (∃ j, k ≤ j ∧ j < k + fuel ∧ ¬ Maze.collidesBarrier (cand j).1 (cand j).2 size) →
      ∃ p, Maze.randomPosAux size cand k fuel = some p := by
  intro fuel
  induction fuel with
  | zero =>
      intro k h
      obtain ⟨j, hj1, hj2, _⟩ := h
      omega
  | succ n ih =>
      intro k h
      unfold Maze.randomPosAux
      by_cases hc : Maze.collidesBarrier (cand k).1 (cand k).2 size
      · rw [if_pos hc]
        obtain ⟨j, hj1, hj2, hj3⟩ := h
        refine ih (k + 1) ⟨j, ?_, ?_, hj3⟩
        · rcases Nat.eq_or_lt_of_le hj1 with rfl | hlt
          · exact absurd hj3 (by simpa using hc)
          · omega
        · omega
      · rw [if_neg hc]
        exact ⟨cand k, rfl⟩

/-- The point (200, 200) is clear of every barrier at cherry size. -/
lemma clear_point_200 : ¬ Maze.collidesBarrier 200 200 Maze.CHERRY_SIZE := by
  rintro ⟨b, hb, hov⟩
  fin_cases hb <;>
    · simp only [Maze.overlaps, Maze.width, Maze.height, Maze.CHERRY_SIZE] at hov
      norm_num at hov

/-- Flight helper: a pipe moves left by pipeSpeed each frame. -/
lemma stepPipe_x (p : Flight.Pipe) : (Flight.stepPipe p).x = p.x - Flight.pipeSpeed := by
  unfold Flight.stepPipe
  split_ifs <;> rfl

/-- Flight helper: position of a pipe after n frames. -/
lemma stepPipe_iterate_x (p : Flight.Pipe) (n : ℕ) :
    ((Flight.stepPipe)^[n] p).x = p.x - n * Flight.pipeSpeed := by
  induction n with
  | zero => simp
  | succ m ih =>
      rw [Function.iterate_succ_apply', stepPipe_x, ih]
      push_cast
      ring

/-- Flight helper: the scored flag after one frame. -/
lemma stepPipe_scored (p : Flight.Pipe) :
    (Flight.stepPipe p).scored
      = (p.scored || decide (p.x - Flight.pipeSpeed + Flight.pipeWidth < Flight.width / 4)) := by
  by_cases hs : p.scored <;>
    by_cases hc : p.x - Flight.pipeSpeed + Flight.pipeWidth < Flight.width / 4 <;>
      simp [Flight.stepPipe, hs, hc]

/-- Flight helper: the per-pipe increment is the change of the scored
flag, viewed as 0 or 1. -/
lemma stepPipe_inc_telescope (p : Flight.Pipe) :
    (if (Flight.stepPipe p).scored = true then 1 else 0)
      = (if p.scored = true then 1 else 0) + Flight.pipeInc p := by
  by_cases hs : p.scored <;>
    by_cases hc : p.x - Flight.pipeSpeed + Flight.pipeWidth < Flight.width / 4 <;>
      simp [stepPipe_scored, Flight.pipeInc, hs, hc]

/-- Constant position stream used for concrete spawn inputs. -/
def constPos : ℕ → ℝ × ℝ := fun _ => (200, 200)

/-- Constant angle stream used for concrete random inputs. -/
def constAng : ℕ → ℝ := fun _ => 0

/-- The actor at the canvas center with zero velocity (the start
configuration). -/
def demoPac : Maze.Pac := { x := 250, y := 250, dx := 0, dy := 0 }

/-- A concrete running state with no ghosts and no cherries. -/
def demoState : Maze.State :=
  { pac := demoPac, ghosts := [], cherries := [], apex := none,
    apexRespawnAt := 0, score := 5, gameOver := false, started := true }

/-- Concrete random inputs for one frame. -/
def demoRIn : Maze.RIn :=
  { r := fun _ => 1, ang := fun _ => 0, eatAng := fun _ => 0,
    spawnC := fun _ => (200, 200), spawnA := (200, 200) }

/-- A concrete finished state in which the power item is absent and its
respawn lies far in the future. -/
def c3EndedState : Maze.State :=
  { pac := { x := 100, y := 100, dx := 0, dy := 0 }, ghosts := [], cherries := [],
    apex := none, apexRespawnAt := 999999, score := 7, gameOver := true, started := true }

/-! ## Claim theorems -/

/-- C9: the axis-aligned box overlap test uses strict inequalities
only, so it is symmetric in its two arguments, any box of positive
width and height overlaps itself, and two boxes whose edges exactly
touch are reported as not colliding. -/
theorem c9_overlap_algebra :
    (∀ a b : Maze.Box, Maze.overlaps a b ↔ Maze.overlaps b a)
  ∧ (∀ a : Maze.Box, 0 < a.w → 0 < a.h → Maze.overlaps a a)
  ∧ (∀ a b : Maze.Box, a.x + a.w = b.x → ¬ Maze.overlaps a b) := by
  refine ⟨?_, ?_, ?_⟩
  · intro a b
    unfold Maze.overlaps
    constructor <;> rintro ⟨h1, h2, h3, h4⟩ <;> exact ⟨h2, h1, h4, h3⟩
  · intro a hw hh
    exact ⟨by linarith, by linarith, by linarith, by linarith⟩
  · intro a b he h
    obtain ⟨h1, h2, h3, h4⟩ := h
    simp only [gt_iff_lt] at h2
    linarith

/-- Witness for C9: the unit box at the origin overlaps itself, and the
unit box exactly touching it on the right does not collide with it. -/
theorem c9_overlap_algebra_witness :
    ((0 : ℝ) < 1 ∧ Maze.overlaps { x := 0, y := 0, w := 1, h := 1 } { x := 0, y := 0, w := 1, h := 1 })
  ∧ ((0 : ℝ) + 1 = 1 ∧ ¬ Maze.overlaps { x := 0, y := 0, w := 1, h := 1 } { x := 1, y := 0, w := 1, h := 1 }) :=
  ⟨⟨by norm_num, c9_overlap_algebra.2.1 _ (by norm_num) (by norm_num)⟩,
   ⟨by norm_num, c9_overlap_algebra.2.2 _ _ (by norm_num)⟩⟩

/-- C10: after every maze tick the actor position lies inside the frame
interior, 10 ≤ x ≤ width − PAC_SIZE − 10 and 10 ≤ y ≤ height −
PAC_SIZE − 10, because the unconditional clamp runs after the barrier
revert and nothing later in the tick moves the actor. -/
theorem c10_actor_frame_clamp (s : Maze.State) (now a1 a2 : ℤ) (ri : Maze.RIn) :
    10 ≤ (Maze.tick s now a1 a2 ri).pac.x ∧
    (Maze.tick s now a1 a2 ri).pac.x ≤ Maze.width - Maze.PAC_SIZE - 10 ∧
    10 ≤ (Maze.tick s now a1 a2 ri).pac.y ∧
    (Maze.tick s now a1 a2 ri).pac.y ≤ Maze.height - Maze.PAC_SIZE - 10 := by
  rw [tick_pac]
  exact clampPac_bounds _

/-- The unbounded rejection loop on an always-colliding stream makes no
progress at any fuel bound. -/
lemma randomPosFuel_stuck (fuel : ℕ) :
    Maze.randomPosFuel Maze.CHERRY_SIZE (fun _ => ((0 : ℝ), (0 : ℝ))) fuel = none :=
  randomPosAux_stuck fuel 0

/-- Counterexample for C5: the spawn-position loop of the source has no
retry cap and no fallback coordinate.  On the candidate stream that
always draws the origin (which lies inside the top frame wall) the
rejection loop never returns a position — after one hundred, one
million, or a billion retries it has still produced nothing, instead
of falling back to a known-clear coordinate. -/
theorem c5_unbounded_rejection_cex :
    Maze.randomPosFuel Maze.CHERRY_SIZE (fun _ => ((0 : ℝ), (0 : ℝ))) 100 = none
  ∧ Maze.randomPosFuel Maze.CHERRY_SIZE (fun _ => ((0 : ℝ), (0 : ℝ))) 1000000 = none
  ∧ Maze.randomPosFuel Maze.CHERRY_SIZE (fun _ => ((0 : ℝ), (0 : ℝ))) 1000000000 = none :=
  ⟨randomPosFuel_stuck 100, randomPosFuel_stuck 1000000, randomPosFuel_stuck 1000000000⟩

/-- C5 amended: spawn-position generation is an uncapped rejection
loop: whenever it returns, the returned position is barrier-free, and
it does return as soon as the candidate stream offers a barrier-free
draw within the inspected window — but no retry cap or fallback
coordinate exists, so termination depends on the random stream. -/
theorem c5_rejection_loop_amended :
    (∀ (size : ℝ) (cand : ℕ → ℝ × ℝ) (fuel : ℕ) (p : ℝ × ℝ),
        Maze.randomPosFuel size cand fuel = some p → ¬ Maze.collidesBarrier p.1 p.2 size)
  ∧ (∀ (size : ℝ) (cand : ℕ → ℝ × ℝ) (fuel j : ℕ),
        j < fuel → ¬ Maze.collidesBarrier (cand j).1 (cand j).2 size →
        ∃ p, Maze.randomPosFuel size cand fuel = some p ∧
          ¬ Maze.collidesBarrier p.1 p.2 size) := by
  constructor
  · intro size cand fuel p h
    exact randomPosAux_sound size cand fuel 0 p h
  · intro size cand fuel j hj hclear
    obtain ⟨p, hp⟩ := randomPosAux_terminates size cand fuel 0 ⟨j, by omega, by omega, hclear⟩
    exact ⟨p, hp, randomPosAux_sound size cand fuel 0 p hp⟩

/-- Witness for C5: the stream that always draws (200, 200) — a point
clear of all barriers — makes the loop return a barrier-free position
with one unit of fuel. -/
theorem c5_rejection_loop_amended_witness :
    (0 < 1 ∧ ¬ Maze.collidesBarrier 200 200 Maze.CHERRY_SIZE) ∧
    ∃ p, Maze.randomPosFuel Maze.CHERRY_SIZE (fun _ => ((200 : ℝ), (200 : ℝ))) 1 = some p ∧
      ¬ Maze.collidesBarrier p.1 p.2 Maze.CHERRY_SIZE :=
  ⟨⟨by norm_num, clear_point_200⟩,
   c5_rejection_loop_amended.2 Maze.CHERRY_SIZE (fun _ => ((200 : ℝ), (200 : ℝ))) 1 0
     (by norm_num) clear_point_200⟩

/-- C4: flight-variant pass scoring is edge-triggered.  The scored flag
is monotone; the per-pipe increment is one exactly on the frame the
flag flips; over any number of frames an initially unscored pipe
contributes exactly one point once scored and zero before; the flag is
set after n frames exactly when the trailing edge p.x − n·pipeSpeed +
pipeWidth has moved strictly left of width / 4; and the tick score is
the old score plus the per-pipe increments. -/
theorem c4_edge_triggered_scoring :
    (∀ p : Flight.Pipe, p.scored = true → (Flight.stepPipe p).scored = true)
  ∧ (∀ p : Flight.Pipe, Flight.pipeInc p = 1 ↔
      (p.scored = false ∧ (Flight.stepPipe p).scored = true))
  ∧ (∀ p : Flight.Pipe, p.scored = false →
      ∀ n : ℕ, (∑ i ∈ Finset.range n, Flight.pipeInc ((Flight.stepPipe)^[i] p))
        = if ((Flight.stepPipe)^[n] p).scored = true then 1 else 0)
  ∧ (∀ p : Flight.Pipe, p.scored = false →
      ¬ (p.x + Flight.pipeWidth < Flight.width / 4) →
      ∀ n : ℕ, (((Flight.stepPipe)^[n] p).scored = true ↔
        p.x - n * Flight.pipeSpeed + Flight.pipeWidth < Flight.width / 4))
  ∧ (∀ (s : Flight.FState) (gap : ℚ),
      (Flight.flightTick s gap).score
        = s.score + (((Flight.pipesAfterSpawn s gap).map Flight.pipeInc).sum : ℤ)) := by
  refine ⟨?_, ?_, ?_, ?_, ?_⟩
  · intro p hp
    simp [stepPipe_scored, hp]
  · intro p
    by_cases hs : p.scored <;>
      by_cases hc : p.x - Flight.pipeSpeed + Flight.pipeWidth < Flight.width / 4 <;>
        simp [Flight.pipeInc, stepPipe_scored, hs, hc]
  · intro p hp n
    induction n with
    | zero => simp [hp]
    | succ m ih =>
        rw [Finset.sum_range_succ, ih, Function.iterate_succ_apply',
          stepPipe_inc_telescope]
  · intro p hp hstart n
    induction n with
    | zero =>
        simp only [Function.iterate_zero_apply, hp, Nat.cast_zero, zero_mul, sub_zero]
        constructor
        · intro h
          exact absurd h (by simp)
        · intro h
          exact absurd h hstart
    | succ m ih =>
        rw [Function.iterate_succ_apply', stepPipe_scored, stepPipe_iterate_x]
        have hstep : (p.x - m * Flight.pipeSpeed + Flight.pipeWidth < Flight.width / 4) →
            (p.x - (m + 1 : ℕ) * Flight.pipeSpeed + Flight.pipeWidth < Flight.width / 4) := by
          intro h
          push_cast
          have : (0 : ℚ) < Flight.pipeSpeed := by norm_num [Flight.pipeSpeed]
          push_cast at h
          linarith
        constructor
        · intro h
          rcases Bool.or_eq_true_iff.mp h with h1 | h1
          · exact hstep (ih.mp h1)
          · have := of_decide_eq_true h1
            push_cast at this ⊢
            linarith
        · intro h
          refine Bool.or_eq_true_iff.mpr (Or.inr (decide_eq_true ?_))
          push_cast at h
          linarith
  · intro s gap
    rfl

/-- Witness for C4: a pipe entering at the right edge is unscored and
uncrossed, and the exactly-once and first-crossing statements apply to
it over three frames. -/
theorem c4_edge_triggered_scoring_witness :
    ((Flight.Pipe.mk 400 200 false).scored = false
      ∧ ¬ ((Flight.Pipe.mk 400 200 false).x + Flight.pipeWidth < Flight.width / 4))
  ∧ (∑ i ∈ Finset.range 3, Flight.pipeInc ((Flight.stepPipe)^[i] (Flight.Pipe.mk 400 200 false)))
      = (if ((Flight.stepPipe)^[3] (Flight.Pipe.mk 400 200 false)).scored = true then 1 else 0)
  ∧ (((Flight.stepPipe)^[3] (Flight.Pipe.mk 400 200 false)).scored = true ↔
      (Flight.Pipe.mk 400 200 false).x - 3 * Flight.pipeSpeed + Flight.pipeWidth
        < Flight.width / 4) :=
  ⟨⟨rfl, by norm_num [Flight.pipeWidth, Flight.width]⟩,
   c4_edge_triggered_scoring.2.2.1 _ rfl 3,
   by
     have h := c4_edge_triggered_scoring.2.2.2.1 (Flight.Pipe.mk 400 200 false) rfl
       (by norm_num [Flight.pipeWidth, Flight.width]) 3
     simpa using h⟩

/-- Counterexample for C3: a qualifying key press on a finished game in
which the power item is currently absent restarts the game without
re-spawning the power item: the lifecycle returns to Running but the
apex stays absent (its reappearance is left to the pending respawn
schedule), contradicting the claim that the full reset re-spawns the
power item. -/
theorem c3_reset_cex :
    Maze.lifecycle (Maze.handleKey .up c3EndedState constPos constAng constPos).started
        (Maze.handleKey .up c3EndedState constPos constAng constPos).gameOver = .Running
  ∧ (Maze.handleKey .up c3EndedState constPos constAng constPos).apex = none
  ∧ (Maze.handleKey .up c3EndedState constPos constAng constPos).apexRespawnAt = 999999 := by
  refine ⟨?_, ?_, ?_⟩ <;> rfl

/-- C3 amended: a qualifying input on a finished game performs a reset
before restarting — score 0, actor repositioned to the start with zero
velocity, pursuers and collectibles re-spawned with both pursuer timers
cleared to the already-expired value 0 — but the power item is not
re-spawned: both the item and its pending respawn timestamp carry over
unchanged from the previous session. -/
theorem c3_restart_reset_amended (k : Maze.Key) (s : Maze.State)
    (gpos : ℕ → ℝ × ℝ) (gang : ℕ → ℝ) (cpos : ℕ → ℝ × ℝ) (h : s.gameOver = true) :
    (Maze.handleKey k s gpos gang cpos).score = 0
  ∧ (Maze.handleKey k s gpos gang cpos).pac
      = { x := Maze.width / 2, y := Maze.height / 2, dx := 0, dy := 0 }
  ∧ (Maze.handleKey k s gpos gang cpos).ghosts = Maze.spawnGhosts gpos gang
  ∧ (∀ g ∈ (Maze.handleKey k s gpos gang cpos).ghosts,
      g.vulnerableUntil = 0 ∧ g.eatenUntil = 0)
  ∧ (Maze.handleKey k s gpos gang cpos).cherries = Maze.spawnCherries cpos
  ∧ (Maze.handleKey k s gpos gang cpos).apex = s.apex
  ∧ (Maze.handleKey k s gpos gang cpos).apexRespawnAt = s.apexRespawnAt
  ∧ Maze.lifecycle (Maze.handleKey k s gpos gang cpos).started
      (Maze.handleKey k s gpos gang cpos).gameOver = .Running := by
  have hcond : ¬ (s.started = false ∧ s.gameOver = false) := by simp [h]
  have hk : Maze.handleKey k s gpos gang cpos
      = { Maze.resetGame s gpos gang cpos with started := true } := by
    simp only [Maze.handleKey]
    rw [if_neg hcond, if_pos h]
  rw [hk]
  refine ⟨rfl, rfl, rfl, ?_, rfl, rfl, rfl, rfl⟩
  intro g hgm
  simp only [Maze.resetGame, Maze.spawnGhosts, List.mem_map] at hgm
  obtain ⟨i, _, rfl⟩ := hgm
  exact ⟨rfl, rfl⟩

/-- Witness for C3 amended: the amended description holds on the
concrete finished state. -/
theorem c3_restart_reset_amended_witness :
    c3EndedState.gameOver = true
  ∧ (Maze.handleKey .down c3EndedState constPos constAng constPos).score = 0
  ∧ (Maze.handleKey .down c3EndedState constPos constAng constPos).apex = c3EndedState.apex :=
  ⟨rfl,
   (c3_restart_reset_amended .down c3EndedState constPos constAng constPos rfl).1,
   (c3_restart_reset_amended .down c3EndedState constPos constAng constPos rfl).2.2.2.2.2.1⟩

/-- The per-ghost collision score delta is ten exactly on the capture
condition and zero otherwise. -/
lemma ghostCollide_delta (pac : Maze.Pac) (now : ℤ) (ang : ℝ) (g : Maze.Ghost) :
    (Maze.ghostCollide pac now ang g).2.1
      = if Maze.ghostEaten pac now g then 10 else 0 := by
  unfold Maze.ghostCollide Maze.ghostEaten
  split_ifs <;> first
    | rfl
    | tauto

/-- The collision phase adds exactly ten points per ghost satisfying
the capture condition. -/
lemma collidePhase_delta (pac : Maze.Pac) (now : ℤ) (ang : ℕ → ℝ) :
    ∀ (gs : List Maze.Ghost) (k : ℕ),
      ((Maze.mapWithIndex (fun i g => Maze.ghostCollide pac now (ang i) g) k gs).map
        (fun t => t.2.1)).sum
        = 10 * gs.countP (fun g => decide (Maze.ghostEaten pac now g)) := by
  intro gs
  induction gs with
  | nil =>
      intro k
      simp [Maze.mapWithIndex]
  | cons a l ih =>
      intro k
      simp only [Maze.mapWithIndex, List.map_cons, List.sum_cons, List.countP_cons,
        ghostCollide_delta, ih (k + 1)]
      by_cases h : Maze.ghostEaten pac now a
      · simp only [h, if_pos, decide_eq_true_eq, if_true]
        ring
      · simp [h]

/-- The cherry phase eats exactly the cherries within capture
distance: its count is the number of hit cherries. -/
lemma cherryPhase_count (pac : Maze.Pac) (sp : ℕ → ℝ × ℝ) (cs : List (ℝ × ℝ)) :
    (Maze.cherryPhase pac sp cs).2
      = cs.countP (fun c => decide (Maze.cherryHit pac c)) := by
  simp only [Maze.cherryPhase, decide_not]
  rw [List.countP_eq_length_filter,
    List.length_eq_length_filter_add (fun c => decide (Maze.cherryHit pac c))]
  omega

/-- C7: the score is an integer that never decreases during a running
session and whose only per-event changes match the source: one maze
tick adds the number of captured collectibles (one point each, counted
by the cherry phase) plus exactly ten per captured vulnerable pursuer
(the summed collision deltas), one flight tick adds the per-obstacle
pass increments, a positive score stays positive across a tick, scores
are zeroed exactly by the reset functions, and inputs during a running
maze session never change the score while an input on a finished
session resets it to zero. -/
theorem c7_score_monotone :
    (∀ (s : Maze.State) (now a1 a2 : ℤ) (ri : Maze.RIn),
        (Maze.tick s now a1 a2 ri).score
          = s.score
            + ((Maze.cherryPhase (Maze.clampPac (Maze.pacMove s.pac)) ri.spawnC s.cherries).2 : ℤ)
            + (((Maze.ghostCollidePhase (Maze.clampPac (Maze.pacMove s.pac)) now ri.eatAng
                (Maze.apexPhase (Maze.clampPac (Maze.pacMove s.pac)) a1 a2 s.apex s.apexRespawnAt
                  (Maze.mapWithIndex (fun i g =>
                    Maze.ghostMove (Maze.clampPac (Maze.pacMove s.pac)) now (ri.r i) (ri.ang i) g)
                    0 s.ghosts)).2.2)).2.1 : ℤ))
  ∧ (∀ (pac : Maze.Pac) (sp : ℕ → ℝ × ℝ) (cs : List (ℝ × ℝ)),
      (Maze.cherryPhase pac sp cs).2 = cs.countP (fun c => decide (Maze.cherryHit pac c)))
  ∧ (∀ (pac : Maze.Pac) (now : ℤ) (ang : ℕ → ℝ) (gs : List Maze.Ghost),
      (Maze.ghostCollidePhase pac now ang gs).2.1
        = 10 * gs.countP (fun g => decide (Maze.ghostEaten pac now g)))
  ∧ (∀ (s : Maze.State) (now a1 a2 : ℤ) (ri : Maze.RIn),
      s.score ≤ (Maze.tick s now a1 a2 ri).score)
  ∧ (∀ (s : Maze.State) (now a1 a2 : ℤ) (ri : Maze.RIn),
      0 ≤ s.score → 0 ≤ (Maze.tick s now a1 a2 ri).score)
  ∧ (∀ (s : Maze.State) (now a1 a2 : ℤ) (ri : Maze.RIn),
      0 < s.score → 0 < (Maze.tick s now a1 a2 ri).score)
  ∧ (∀ (fs : Flight.FState) (gap : ℚ), fs.score ≤ (Flight.flightTick fs gap).score)
  ∧ (∀ (s : Maze.State) (gpos : ℕ → ℝ × ℝ) (gang : ℕ → ℝ) (cpos : ℕ → ℝ × ℝ),
      (Maze.resetGame s gpos gang cpos).score = 0)
  ∧ (∀ fs : Flight.FState, (Flight.fresetGame fs).score = 0)
  ∧ (∀ (k : Maze.Key) (s : Maze.State) (gpos : ℕ → ℝ × ℝ) (gang : ℕ → ℝ)
      (cpos : ℕ → ℝ × ℝ), s.gameOver = false →
      (Maze.handleKey k s gpos gang cpos).score = s.score)
  ∧ (∀ (k : Maze.Key) (s : Maze.State) (gpos : ℕ → ℝ × ℝ) (gang : ℕ → ℝ)
      (cpos : ℕ → ℝ × ℝ), s.gameOver = true →
      (Maze.handleKey k s gpos gang cpos).score = 0) := by
  have key : ∀ (base : ℤ) (a b : ℕ), base ≤ base + (a : ℤ) + (b : ℤ) := by
    intro base a b
    have ha : (0 : ℤ) ≤ (a : ℤ) := Int.natCast_nonneg a
    have hb : (0 : ℤ) ≤ (b : ℤ) := Int.natCast_nonneg b
    linarith
  refine ⟨?_, ?_, ?_, ?_, ?_, ?_, ?_, ?_, ?_, ?_, ?_⟩
  · intro s now a1 a2 ri
    rfl
  · intro pac sp cs
    exact cherryPhase_count pac sp cs
  · intro pac now ang gs
    exact collidePhase_delta pac now ang gs 0
  · intro s now a1 a2 ri
    exact key s.score _ _
  · intro s now a1 a2 ri h
    have := key s.score
      ((Maze.cherryPhase (Maze.clampPac (Maze.pacMove s.pac)) ri.spawnC s.cherries).2)
      (((Maze.ghostCollidePhase (Maze.clampPac (Maze.pacMove s.pac)) now ri.eatAng
        (Maze.apexPhase (Maze.clampPac (Maze.pacMove s.pac)) a1 a2 s.apex s.apexRespawnAt
          (Maze.mapWithIndex (fun i g =>
            Maze.ghostMove (Maze.clampPac (Maze.pacMove s.pac)) now (ri.r i) (ri.ang i) g)
            0 s.ghosts)).2.2)).2.1)
    calc (0 : ℤ) ≤ s.score := h
    _ ≤ _ := this
  · intro s now a1 a2 ri h
    have := key s.score
      ((Maze.cherryPhase (Maze.clampPac (Maze.pacMove s.pac)) ri.spawnC s.cherries).2)
      (((Maze.ghostCollidePhase (Maze.clampPac (Maze.pacMove s.pac)) now ri.eatAng
        (Maze.apexPhase (Maze.clampPac (Maze.pacMove s.pac)) a1 a2 s.apex s.apexRespawnAt
          (Maze.mapWithIndex (fun i g =>
            Maze.ghostMove (Maze.clampPac (Maze.pacMove s.pac)) now (ri.r i) (ri.ang i) g)
            0 s.ghosts)).2.2)).2.1)
    calc (0 : ℤ) < s.score := h
    _ ≤ _ := this
  · intro fs gap
    have hnn : ∀ n : ℕ, fs.score ≤ fs.score + (n : ℤ) := by
      intro n
      have := Int.natCast_nonneg n
      linarith
    exact hnn _
  · intro s gpos gang cpos
    rfl
  · intro fs
    rfl
  · intro k s gpos gang cpos h
    by_cases hs : s.started <;> rcases k <;> simp [Maze.handleKey, h, hs]
  · intro k s gpos gang cpos h
    have hcond : ¬ (s.started = false ∧ s.gameOver = false) := by simp [h]
    simp only [Maze.handleKey]
    rw [if_neg hcond, if_pos h]
    rfl

/-- Witness for C7: the monotonicity, positivity and input statements
applied to concrete running and finished states. -/
theorem c7_score_monotone_witness :
    (0 ≤ demoState.score ∧ 0 ≤ (Maze.tick demoState 1000 1000 1000 demoRIn).score)
  ∧ (0 < demoState.score ∧ 0 < (Maze.tick demoState 1000 1000 1000 demoRIn).score)
  ∧ (demoState.gameOver = false
      ∧ (Maze.handleKey .up demoState constPos constAng constPos).score = demoState.score)
  ∧ (c3EndedState.gameOver = true
      ∧ (Maze.handleKey .up c3EndedState constPos constAng constPos).score = 0) :=
  ⟨⟨by norm_num [demoState],
    c7_score_monotone.2.2.2.2.1 demoState 1000 1000 1000 demoRIn (by norm_num [demoState])⟩,
   ⟨by norm_num [demoState],
    c7_score_monotone.2.2.2.2.2.1 demoState 1000 1000 1000 demoRIn (by norm_num [demoState])⟩,
   ⟨rfl, c7_score_monotone.2.2.2.2.2.2.2.2.2.1 .up demoState constPos constAng constPos rfl⟩,
   ⟨rfl, c7_score_monotone.2.2.2.2.2.2.2.2.2.2 .up c3EndedState constPos constAng constPos rfl⟩⟩

/-- The canvas center is clear of every barrier at actor size. -/
lemma clear_pac_250 : ¬ Maze.collidesBarrier 250 250 Maze.PAC_SIZE := by
  rintro ⟨b, hb, hov⟩
  fin_cases hb <;>
    · simp only [Maze.overlaps, Maze.width, Maze.height, Maze.PAC_SIZE] at hov
      norm_num at hov

/-- The clamp is the identity on positions already inside the frame
interior. -/
lemma clampPac_id (p : Maze.Pac) (hx1 : 10 ≤ p.x)
    (hx2 : p.x ≤ Maze.width - Maze.PAC_SIZE - 10) (hy1 : 10 ≤ p.y)
    (hy2 : p.y ≤ Maze.height - Maze.PAC_SIZE - 10) : Maze.clampPac p = p := by
  simp only [Maze.clampPac]
  rw [if_neg (not_lt.mpr hx1), if_neg (not_lt.mpr hx2),
    if_neg (not_lt.mpr hy1), if_neg (not_lt.mpr hy2)]

/-- Moving and clamping the centered, motionless actor leaves it in
place. -/
lemma pacMove_demoPac : Maze.clampPac (Maze.pacMove demoPac) = demoPac := by
  have h250 : ¬ Maze.collidesBarrier (demoPac.x + demoPac.dx) (demoPac.y + demoPac.dy)
      Maze.PAC_SIZE := by
    simpa [demoPac] using clear_pac_250
  unfold Maze.pacMove
  rw [if_neg h250]
  rw [clampPac_id _ (by norm_num [demoPac]) (by norm_num [demoPac, Maze.width, Maze.PAC_SIZE])
    (by norm_num [demoPac]) (by norm_num [demoPac, Maze.height, Maze.PAC_SIZE])]
  simp [demoPac]

/-- The centered actor captures an apex item drawn at (249, 249): both
centers coincide, so the distance is zero. -/
lemma apexHit_demo : Maze.apexHit demoPac ((249 : ℝ), (249 : ℝ)) := by
  unfold Maze.apexHit Maze.hypot
  norm_num [demoPac, Maze.PAC_SIZE, Maze.APEX_SIZE, Real.sqrt_zero]

/-- An actor and a ghost at the same corner position are in contact. -/
lemma contact_100 (vu eu : ℤ) :
    Maze.ghostContact (Maze.Pac.mk 100 100 0 0) (Maze.Ghost.mk 100 100 0 0 vu eu) := by
  unfold Maze.ghostContact Maze.hypot
  norm_num [Maze.PAC_SIZE, Maze.GHOST_SIZE, Real.sqrt_zero]

/-- The per-ghost collision handler reports a fatal contact exactly on
the fatal-contact condition. -/
lemma ghostCollide_flag (pac : Maze.Pac) (now : ℤ) (ang : ℝ) (g : Maze.Ghost) :
    ((Maze.ghostCollide pac now ang g).2.2 = true) ↔ Maze.ghostFatal pac now g := by
  unfold Maze.ghostCollide Maze.ghostFatal
  split_ifs with h1 h2 h3
  · simp [h1]
  · simp [h3]
  · simp [h1, h2, h3]
  · simp [h2]

/-- The collision phase raises the game-over flag exactly when some
listed ghost satisfies the fatal-contact condition. -/
lemma collidePhase_flag (pac : Maze.Pac) (now : ℤ) (ang : ℕ → ℝ) :
    ∀ (gs : List Maze.Ghost) (k : ℕ),
      (((Maze.mapWithIndex (fun i g => Maze.ghostCollide pac now (ang i) g) k gs).any
        (fun t => t.2.2)) = true) ↔ ∃ g ∈ gs, Maze.ghostFatal pac now g := by
  intro gs
  induction gs with
  | nil => intro k; simp [Maze.mapWithIndex]
  | cons a l ih =>
      intro k
      simp only [Maze.mapWithIndex, List.any_cons, Bool.or_eq_true, List.mem_cons]
      constructor
      · rintro (h | h)
        · exact ⟨a, Or.inl rfl, (ghostCollide_flag pac now (ang k) a).mp h⟩
        · obtain ⟨g, hg, hf⟩ := (ih (k + 1)).mp h
          exact ⟨g, Or.inr hg, hf⟩
      · rintro ⟨g, (rfl | hg), hf⟩
        · exact Or.inl ((ghostCollide_flag pac now (ang k) g).mpr hf)
        · exact Or.inr ((ih (k + 1)).mpr ⟨g, hg, hf⟩)

/-- The lifecycle is Ended exactly when the game-over flag is set. -/
lemma lifecycle_ended_iff (st go : Bool) :
    Maze.lifecycle st go = .Ended ↔ go = true := by
  cases go <;> cases st <;> simp [Maze.lifecycle]

/-- C1: capturing the power item at a tick executing at time T clears
it, schedules its respawn at T + 15000 and makes every pursuer
vulnerable until T + 10000; afterwards contact between the actor and a
non-hidden pursuer is checked against vulnerability first: while now is
before the vulnerability expiry the contact scores ten points, hides
the pursuer until now + 2000, teleports it to the canvas center with a
fresh random heading and never raises game over, while contact at or
after the expiry raises game over (lifecycle Ended); the two outcomes
are mutually exclusive for one collision. -/
theorem c1_power_item_vulnerability :
    (∀ (pac : Maze.Pac) (T respawnAt : ℤ) (a : ℝ × ℝ) (gs : List Maze.Ghost),
        Maze.apexHit pac a →
        Maze.apexPhase pac T T (some a) respawnAt gs
          = (none, T + 15000, gs.map (fun g =>
              { x := g.x, y := g.y, dx := g.dx, dy := g.dy,
                vulnerableUntil := T + 10000, eatenUntil := g.eatenUntil })))
  ∧ (∀ (pac : Maze.Pac) (now : ℤ) (ang : ℝ) (g : Maze.Ghost),
        ¬ now < g.eatenUntil → Maze.ghostContact pac g → now < g.vulnerableUntil →
        Maze.ghostCollide pac now ang g
          = ({ x := Maze.width / 2 - Maze.GHOST_SIZE / 2,
               y := Maze.height / 2 - Maze.GHOST_SIZE / 2,
               dx := Real.cos ang * Maze.GHOST_SPEED,
               dy := Real.sin ang * Maze.GHOST_SPEED,
               vulnerableUntil := g.vulnerableUntil, eatenUntil := now + 2000 }, 10, false))
  ∧ (∀ (pac : Maze.Pac) (now : ℤ) (ang : ℝ) (g : Maze.Ghost),
        ¬ now < g.eatenUntil → Maze.ghostContact pac g → ¬ now < g.vulnerableUntil →
        Maze.ghostCollide pac now ang g = (g, 0, true))
  ∧ (∀ (pac : Maze.Pac) (now : ℤ) (ang : ℝ) (g : Maze.Ghost),
        ¬ ((Maze.ghostCollide pac now ang g).2.1 = 10
            ∧ (Maze.ghostCollide pac now ang g).2.2 = true))
  ∧ (∀ (s : Maze.State) (now a1 a2 : ℤ) (ri : Maze.RIn), s.gameOver = false →
        (Maze.lifecycle (Maze.tick s now a1 a2 ri).started (Maze.tick s now a1 a2 ri).gameOver
            = .Ended
          ↔ ∃ g ∈ (Maze.apexPhase (Maze.clampPac (Maze.pacMove s.pac)) a1 a2 s.apex
                s.apexRespawnAt
                (Maze.mapWithIndex (fun i t => Maze.ghostMove (Maze.clampPac (Maze.pacMove s.pac))
                  now (ri.r i) (ri.ang i) t) 0 s.ghosts)).2.2,
              Maze.ghostFatal (Maze.clampPac (Maze.pacMove s.pac)) now g)) := by
  refine ⟨?_, ?_, ?_, ?_, ?_⟩
  · intro pac T respawnAt a gs hhit
    simp only [Maze.apexPhase]
    rw [if_pos hhit]
  · intro pac now ang g h1 h2 h3
    unfold Maze.ghostCollide
    rw [if_neg h1, if_pos h2, if_pos h3]
  · intro pac now ang g h1 h2 h3
    unfold Maze.ghostCollide
    rw [if_neg h1, if_pos h2, if_neg h3]
  · intro pac now ang g
    unfold Maze.ghostCollide
    split_ifs <;> simp
  · intro s now a1 a2 ri hgo
    have hGO : (Maze.tick s now a1 a2 ri).gameOver
        = (s.gameOver || ((Maze.mapWithIndex (fun i t => Maze.ghostCollide
            (Maze.clampPac (Maze.pacMove s.pac)) now (ri.eatAng i) t) 0
            ((Maze.apexPhase (Maze.clampPac (Maze.pacMove s.pac)) a1 a2 s.apex s.apexRespawnAt
              (Maze.mapWithIndex (fun i t => Maze.ghostMove (Maze.clampPac (Maze.pacMove s.pac))
                now (ri.r i) (ri.ang i) t) 0 s.ghosts)).2.2)).any (fun t => t.2.2))) := rfl
    rw [lifecycle_ended_iff, hGO, hgo, Bool.false_or]
    exact collidePhase_flag (Maze.clampPac (Maze.pacMove s.pac)) now ri.eatAng _ 0

/-- Witness for C1: the capture, vulnerable-contact, fatal-contact,
exclusivity and lifecycle statements at concrete states. -/
theorem c1_power_item_vulnerability_witness :
    (Maze.apexHit demoPac ((249 : ℝ), (249 : ℝ))
      ∧ Maze.apexPhase demoPac 1000 1000 (some ((249 : ℝ), (249 : ℝ))) 0
          [Maze.Ghost.mk 100 100 0 0 0 0]
          = (none, 1000 + 15000, [Maze.Ghost.mk 100 100 0 0 0 0].map (fun g =>
              { x := g.x, y := g.y, dx := g.dx, dy := g.dy,
                vulnerableUntil := 1000 + 10000, eatenUntil := g.eatenUntil })))
  ∧ Maze.ghostCollide (Maze.Pac.mk 100 100 0 0) 1000 0 (Maze.Ghost.mk 100 100 0 0 5000 0)
      = ({ x := Maze.width / 2 - Maze.GHOST_SIZE / 2,
           y := Maze.height / 2 - Maze.GHOST_SIZE / 2,
           dx := Real.cos 0 * Maze.GHOST_SPEED, dy := Real.sin 0 * Maze.GHOST_SPEED,
           vulnerableUntil := (Maze.Ghost.mk (100:ℝ) 100 0 0 5000 0).vulnerableUntil,
           eatenUntil := 1000 + 2000 }, 10, false)
  ∧ Maze.ghostCollide (Maze.Pac.mk 100 100 0 0) 1000 0 (Maze.Ghost.mk 100 100 0 0 0 0)
      = (Maze.Ghost.mk 100 100 0 0 0 0, 0, true)
  ∧ ¬ ((Maze.ghostCollide (Maze.Pac.mk 100 100 0 0) 1000 0
          (Maze.Ghost.mk 100 100 0 0 0 0)).2.1 = 10
        ∧ (Maze.ghostCollide (Maze.Pac.mk 100 100 0 0) 1000 0
          (Maze.Ghost.mk 100 100 0 0 0 0)).2.2 = true)
  ∧ (demoState.gameOver = false
      ∧ (Maze.lifecycle (Maze.tick demoState 1000 1 2 demoRIn).started
            (Maze.tick demoState 1000 1 2 demoRIn).gameOver = .Ended
          ↔ ∃ g ∈ (Maze.apexPhase (Maze.clampPac (Maze.pacMove demoState.pac)) 1 2 demoState.apex
                demoState.apexRespawnAt
                (Maze.mapWithIndex (fun i t => Maze.ghostMove
                  (Maze.clampPac (Maze.pacMove demoState.pac))
                  1000 (demoRIn.r i) (demoRIn.ang i) t) 0 demoState.ghosts)).2.2,
              Maze.ghostFatal (Maze.clampPac (Maze.pacMove demoState.pac)) 1000 g)) :=
  ⟨⟨apexHit_demo,
    c1_power_item_vulnerability.1 demoPac 1000 0 ((249 : ℝ), (249 : ℝ))
      [Maze.Ghost.mk 100 100 0 0 0 0] apexHit_demo⟩,
   c1_power_item_vulnerability.2.1 (Maze.Pac.mk 100 100 0 0) 1000 0
     (Maze.Ghost.mk 100 100 0 0 5000 0) (by decide) (contact_100 5000 0) (by decide),
   c1_power_item_vulnerability.2.2.1 (Maze.Pac.mk 100 100 0 0) 1000 0
     (Maze.Ghost.mk 100 100 0 0 0 0) (by decide) (contact_100 0 0) (by decide),
   c1_power_item_vulnerability.2.2.2.1 (Maze.Pac.mk 100 100 0 0) 1000 0
     (Maze.Ghost.mk 100 100 0 0 0 0),
   ⟨rfl, c1_power_item_vulnerability.2.2.2.2 demoState 1000 1 2 demoRIn rfl⟩⟩

/-- A concrete running state in which the actor sits on the power item,
so the capture branch fires on the next tick. -/
def c6State : Maze.State :=
  { pac := demoPac, ghosts := [], cherries := [], apex := some (249, 249),
    apexRespawnAt := 0, score := 0, gameOver := false, started := true }

/-- On c6State the respawn timestamp written by the tick is the second
clock read plus 15000 — not the timestamp read at the start of the
tick. -/
lemma c6_eval (a1 a2 : ℤ) :
    (Maze.tick c6State 1000 a1 a2 demoRIn).apexRespawnAt = a1 + 15000 := by
  have h1 : (Maze.tick c6State 1000 a1 a2 demoRIn).apexRespawnAt
      = (Maze.apexPhase (Maze.clampPac (Maze.pacMove demoPac)) a1 a2
          (some ((249 : ℝ), (249 : ℝ))) 0 []).2.1 := rfl
  rw [h1, pacMove_demoPac]
  simp only [Maze.apexPhase]
  rw [if_pos apexHit_demo]

/-- Counterexample for C6: the source reads the wall clock again inside
the apex capture branch, so the timed-effect outcome of one tick is not
a function of the state and the single starting timestamp.  Holding the
state and the starting read (1000) fixed while the later reads advance
changes the scheduled respawn timestamp. -/
theorem c6_multiple_clock_reads_cex :
    (Maze.tick c6State 1000 1000 1000 demoRIn).apexRespawnAt = 16000
  ∧ (Maze.tick c6State 1000 1001 1002 demoRIn).apexRespawnAt = 16001
  ∧ (Maze.tick c6State 1000 1000 1000 demoRIn).apexRespawnAt
      ≠ (Maze.tick c6State 1000 1001 1002 demoRIn).apexRespawnAt := by
  refine ⟨?_, ?_, ?_⟩
  · rw [c6_eval]
    norm_num
  · rw [c6_eval]
    norm_num
  · rw [c6_eval, c6_eval]
    norm_num

/-- C6 amended: the tick reads the clock up to three times — once at
the start, and that single read is used for every timed-effect
comparison (hidden checks, vulnerability checks, respawn-due check),
plus two further reads inside the apex capture branch used only for
the respawn schedule and the vulnerability-window assignment.  On any
tick in which the capture branch does not fire, the tick is a
deterministic function of the state, the single starting read and the
random draws: the later reads are irrelevant. -/
theorem c6_single_now_amended (s : Maze.State) (now a1 a2 b1 b2 : ℤ) (ri : Maze.RIn)
    (h : ∀ a, s.apex = some a → ¬ Maze.apexHit (Maze.clampPac (Maze.pacMove s.pac)) a) :
    Maze.tick s now a1 a2 ri = Maze.tick s now b1 b2 ri := by
  have hap : ∀ gl : List Maze.Ghost,
      Maze.apexPhase (Maze.clampPac (Maze.pacMove s.pac)) a1 a2 s.apex s.apexRespawnAt gl
        = Maze.apexPhase (Maze.clampPac (Maze.pacMove s.pac)) b1 b2 s.apex s.apexRespawnAt gl := by
    intro gl
    cases hx : s.apex with
    | none => simp [Maze.apexPhase]
    | some a =>
        have hna := h a hx
        simp [Maze.apexPhase, hna]
  simp only [Maze.tick]
  rw [hap]

/-- Witness for C6 amended: on the running state without a power item
the tick ignores the two later clock reads. -/
theorem c6_single_now_amended_witness :
    (∀ a, demoState.apex = some a
        → ¬ Maze.apexHit (Maze.clampPac (Maze.pacMove demoState.pac)) a)
  ∧ Maze.tick demoState 1000 1 2 demoRIn = Maze.tick demoState 1000 3 4 demoRIn :=
  ⟨fun a ha => absurd ha (by simp [demoState]),
   c6_single_now_amended demoState 1000 1 2 3 4 demoRIn
     (fun a ha => absurd ha (by simp [demoState]))⟩

/-- Math.hypot agrees with the complex absolute value. -/
lemma hypot_eq_abs (x y : ℝ) : Maze.hypot x y = Complex.abs { re := x, im := y } := by
  unfold Maze.hypot
  rw [Complex.abs_apply, Complex.normSq_mk]
  congr 1
  ring

/-- A heading of the form (cos θ · c, sin θ · c) has magnitude c. -/
lemma hypot_cos_sin (θ c : ℝ) (hc : 0 ≤ c) :
    Maze.hypot (Real.cos θ * c) (Real.sin θ * c) = c := by
  unfold Maze.hypot
  have h : (Real.cos θ * c) ^ 2 + (Real.sin θ * c) ^ 2 = c ^ 2 := by
    calc (Real.cos θ * c) ^ 2 + (Real.sin θ * c) ^ 2
        = (Real.sin θ ^ 2 + Real.cos θ ^ 2) * c ^ 2 := by ring
      _ = 1 * c ^ 2 := by rw [Real.sin_sq_add_cos_sq]
      _ = c ^ 2 := by ring
  rw [h, Real.sqrt_sq hc]

/-- The steering step either keeps the velocity or replaces it by one
of magnitude GHOST_SPEED. -/
lemma steer_speed (pac : Maze.Pac) (now vu : ℤ) (r ang x y dx dy : ℝ) :
    Maze.steer pac now vu r ang x y dx dy = (dx, dy)
      ∨ Maze.hypot (Maze.steer pac now vu r ang x y dx dy).1
          (Maze.steer pac now vu r ang x y dx dy).2 = Maze.GHOST_SPEED := by
  unfold Maze.steer
  split_ifs with h1 h2
  · right
    exact hypot_cos_sin _ _ (by norm_num [Maze.GHOST_SPEED])
  · right
    exact hypot_cos_sin _ _ (by norm_num [Maze.GHOST_SPEED])
  · left
    rfl

/-- The bounce either keeps or negates the velocity component. -/
lemma bounceVel_cases (hi v d : ℝ) :
    Maze.bounceVel hi v d = d ∨ Maze.bounceVel hi v d = -d := by
  unfold Maze.bounceVel
  split_ifs <;> simp

/-- hypot is invariant under negating either component. -/
lemma hypot_pm (a b a2 b2 : ℝ) (ha : a2 = a ∨ a2 = -a) (hb : b2 = b ∨ b2 = -b) :
    Maze.hypot a2 b2 = Maze.hypot a b := by
  unfold Maze.hypot
  rcases ha with rfl | rfl <;> rcases hb with rfl | rfl <;>
    first
      | rfl
      | (congr 1; ring)

/-- One frame of ghost movement preserves a speed of GHOST_SPEED:
bounces and barrier reverts only negate components, and both steering
outcomes have magnitude GHOST_SPEED. -/
lemma ghostMove_speed (pac : Maze.Pac) (now : ℤ) (r ang : ℝ) (g : Maze.Ghost)
    (h : Maze.hypot g.dx g.dy = Maze.GHOST_SPEED) :
    Maze.hypot (Maze.ghostMove pac now r ang g).dx (Maze.ghostMove pac now r ang g).dy
      = Maze.GHOST_SPEED := by
  have hdx2 := bounceVel_cases (Maze.width - Maze.GHOST_SIZE) (g.x + g.dx) g.dx
  have hdy2 := bounceVel_cases (Maze.height - Maze.GHOST_SIZE) (g.y + g.dy) g.dy
  simp only [Maze.ghostMove]
  split_ifs with h1 h2
  · exact h
  · dsimp only
    rcases steer_speed pac now g.vulnerableUntil r ang g.x g.y
        (-(Maze.bounceVel (Maze.width - Maze.GHOST_SIZE) (g.x + g.dx) g.dx))
        (-(Maze.bounceVel (Maze.height - Maze.GHOST_SIZE) (g.y + g.dy) g.dy)) with heq | hsp
    · rw [heq]
      refine Eq.trans (hypot_pm g.dx g.dy _ _ ?_ ?_) h
      · rcases hdx2 with hc | hc
        · right
          rw [hc]
        · left
          rw [hc, neg_neg]
      · rcases hdy2 with hc | hc
        · right
          rw [hc]
        · left
          rw [hc, neg_neg]
    · exact hsp
  · dsimp only
    rcases steer_speed pac now g.vulnerableUntil r ang
        (Maze.bounceCoord (Maze.width - Maze.GHOST_SIZE) (g.x + g.dx))
        (Maze.bounceCoord (Maze.height - Maze.GHOST_SIZE) (g.y + g.dy))
        (Maze.bounceVel (Maze.width - Maze.GHOST_SIZE) (g.x + g.dx) g.dx)
        (Maze.bounceVel (Maze.height - Maze.GHOST_SIZE) (g.y + g.dy) g.dy) with heq | hsp
    · rw [heq]
      exact Eq.trans (hypot_pm g.dx g.dy _ _ hdx2 hdy2) h
    · exact hsp

/-- The collision handler preserves a speed of GHOST_SPEED: it either
leaves the ghost alone or re-randomizes the heading at GHOST_SPEED. -/
lemma ghostCollide_speed (pac : Maze.Pac) (now : ℤ) (ang : ℝ) (g : Maze.Ghost)
    (h : Maze.hypot g.dx g.dy = Maze.GHOST_SPEED) :
    Maze.hypot (Maze.ghostCollide pac now ang g).1.dx (Maze.ghostCollide pac now ang g).1.dy
      = Maze.GHOST_SPEED := by
  unfold Maze.ghostCollide
  split_ifs <;> dsimp only <;>
    first
      | exact h
      | exact hypot_cos_sin _ _ (by norm_num [Maze.GHOST_SPEED])

/-- C8: per frame, a non-vulnerable ghost whose (post-movement)
distance to the actor is below CHASE_RADIUS has its velocity set that
same frame to point directly at the actor with magnitude GHOST_SPEED;
otherwise the heading is replaced by the drawn random direction at
GHOST_SPEED exactly when the wander draw is below 0.02, and is kept
unchanged otherwise; and no other per-frame ghost operation (bounces,
barrier reverts, collision handling) changes the ghost speed. -/
theorem c8_pursuer_steering :
    (∀ (pac : Maze.Pac) (now vu : ℤ) (r ang x y dx dy : ℝ),
        Maze.hypot (pac.x - x) (pac.y - y) < Maze.CHASE_RADIUS → vu ≤ now →
        Maze.hypot (pac.x - x) (pac.y - y) ≠ 0 →
        Maze.steer pac now vu r ang x y dx dy
          = (Maze.GHOST_SPEED * ((pac.x - x) / Maze.hypot (pac.x - x) (pac.y - y)),
             Maze.GHOST_SPEED * ((pac.y - y) / Maze.hypot (pac.x - x) (pac.y - y))))
  ∧ (∀ (pac : Maze.Pac) (now vu : ℤ) (r ang x y dx dy : ℝ),
        ¬ (Maze.hypot (pac.x - x) (pac.y - y) < Maze.CHASE_RADIUS ∧ vu ≤ now) →
        r < 0.02 →
        Maze.steer pac now vu r ang x y dx dy
          = (Real.cos ang * Maze.GHOST_SPEED, Real.sin ang * Maze.GHOST_SPEED))
  ∧ (∀ (pac : Maze.Pac) (now vu : ℤ) (r ang x y dx dy : ℝ),
        ¬ (Maze.hypot (pac.x - x) (pac.y - y) < Maze.CHASE_RADIUS ∧ vu ≤ now) →
        ¬ r < 0.02 →
        Maze.steer pac now vu r ang x y dx dy = (dx, dy))
  ∧ (∀ (pac : Maze.Pac) (now vu : ℤ) (r ang x y dx dy : ℝ),
        Maze.steer pac now vu r ang x y dx dy = (dx, dy)
          ∨ Maze.hypot (Maze.steer pac now vu r ang x y dx dy).1
              (Maze.steer pac now vu r ang x y dx dy).2 = Maze.GHOST_SPEED)
  ∧ (∀ (pac : Maze.Pac) (now : ℤ) (r ang : ℝ) (g : Maze.Ghost),
        Maze.hypot g.dx g.dy = Maze.GHOST_SPEED →
        Maze.hypot (Maze.ghostMove pac now r ang g).dx (Maze.ghostMove pac now r ang g).dy
          = Maze.GHOST_SPEED)
  ∧ (∀ (pac : Maze.Pac) (now : ℤ) (ang : ℝ) (g : Maze.Ghost),
        Maze.hypot g.dx g.dy = Maze.GHOST_SPEED →
        Maze.hypot (Maze.ghostCollide pac now ang g).1.dx
          (Maze.ghostCollide pac now ang g).1.dy = Maze.GHOST_SPEED) := by
  refine ⟨?_, ?_, ?_, ?_, ?_, ?_⟩
  · intro pac now vu r ang x y dx dy h1 h2 h0
    have hz : ({ re := pac.x - x, im := pac.y - y } : ℂ) ≠ 0 := by
      rw [hypot_eq_abs] at h0
      exact Complex.abs.ne_zero_iff.mp h0
    unfold Maze.steer Maze.atan2
    rw [if_pos ⟨h1, h2⟩]
    rw [Complex.cos_arg hz, Complex.sin_arg]
    rw [hypot_eq_abs]
    simp only [Prod.mk.injEq]
    constructor <;> ring
  · intro pac now vu r ang x y dx dy h1 h2
    unfold Maze.steer
    rw [if_neg h1, if_pos h2]
  · intro pac now vu r ang x y dx dy h1 h2
    unfold Maze.steer
    rw [if_neg h1, if_neg h2]
  · intro pac now vu r ang x y dx dy
    exact steer_speed pac now vu r ang x y dx dy
  · intro pac now r ang g h
    exact ghostMove_speed pac now r ang g h
  · intro pac now ang g h
    exact ghostCollide_speed pac now ang g h

/-- Witness for C8: a stationary ghost at (100, 100) with the actor at
(100, 200) is at distance 100 < 150, so the chase re-aim applies; a
ghost with velocity (2, 0) has speed GHOST_SPEED and keeps it through
one frame of movement. -/
theorem c8_pursuer_steering_witness :
    (Maze.hypot ((100 : ℝ) - 100) ((200 : ℝ) - 100) < Maze.CHASE_RADIUS
      ∧ (0 : ℤ) ≤ 1000
      ∧ Maze.hypot ((100 : ℝ) - 100) ((200 : ℝ) - 100) ≠ 0
      ∧ Maze.steer (Maze.Pac.mk 100 200 0 0) 1000 0 1 0 100 100 0 0
          = (Maze.GHOST_SPEED * (((100 : ℝ) - 100) / Maze.hypot ((100 : ℝ) - 100) ((200 : ℝ) - 100)),
             Maze.GHOST_SPEED * (((200 : ℝ) - 100) / Maze.hypot ((100 : ℝ) - 100) ((200 : ℝ) - 100))))
  ∧ (Maze.hypot (2 : ℝ) 0 = Maze.GHOST_SPEED
      ∧ Maze.hypot (Maze.ghostMove (Maze.Pac.mk 100 200 0 0) 1000 1 0
            (Maze.Ghost.mk 0 0 2 0 0 0)).dx
          (Maze.ghostMove (Maze.Pac.mk 100 200 0 0) 1000 1 0
            (Maze.Ghost.mk 0 0 2 0 0 0)).dy = Maze.GHOST_SPEED) := by
  have e1 : ((100 : ℝ) - 100) = 0 := by norm_num
  have e2 : ((200 : ℝ) - 100) = 100 := by norm_num
  have h100 : Maze.hypot ((100 : ℝ) - 100) ((200 : ℝ) - 100) = 100 := by
    rw [e1, e2]
    unfold Maze.hypot
    rw [show ((0 : ℝ) ^ 2 + 100 ^ 2) = 100 ^ 2 by norm_num]
    rw [Real.sqrt_sq (by norm_num : (0 : ℝ) ≤ 100)]
  have h20 : Maze.hypot (2 : ℝ) 0 = Maze.GHOST_SPEED := by
    unfold Maze.hypot
    rw [show ((2 : ℝ) ^ 2 + 0 ^ 2) = 2 ^ 2 by norm_num]
    rw [Real.sqrt_sq (by norm_num : (0 : ℝ) ≤ 2)]
    norm_num [Maze.GHOST_SPEED]
  have hlt : Maze.hypot ((100 : ℝ) - 100) ((200 : ℝ) - 100) < Maze.CHASE_RADIUS := by
    rw [h100]
    norm_num [Maze.CHASE_RADIUS]
  have hne : Maze.hypot ((100 : ℝ) - 100) ((200 : ℝ) - 100) ≠ 0 := by
    rw [h100]
    norm_num
  exact ⟨⟨hlt, by norm_num, hne,
      c8_pursuer_steering.1 (Maze.Pac.mk 100 200 0 0) 1000 0 1 0 100 100 0 0 hlt
        (by norm_num) hne⟩,
    h20,
    c8_pursuer_steering.2.2.2.2.1 (Maze.Pac.mk 100 200 0 0) 1000 1 0
      (Maze.Ghost.mk 0 0 2 0 0 0) h20⟩

/-- A box at x < 10 that horizontally reaches past 0 and vertically
meets the canvas collides with the left frame wall. -/
lemma collide_left (x y s : ℝ) (h1 : x < 10) (h2 : 0 < x + s) (h3 : y < Maze.height)
    (h4 : 0 < y + s) : Maze.collidesBarrier x y s := by
  refine ⟨{ x := 0, y := 0, w := 10, h := Maze.height }, ?_, ?_⟩
  · simp [Maze.barriers]
  · unfold Maze.overlaps
    dsimp only
    exact ⟨by linarith, by linarith, by linarith, by linarith⟩

/-- A box reaching past width − 10 collides with the right frame
wall. -/
lemma collide_right (x y s : ℝ) (h1 : x < Maze.width) (h2 : Maze.width - 10 < x + s)
    (h3 : y < Maze.height) (h4 : 0 < y + s) : Maze.collidesBarrier x y s := by
  refine ⟨{ x := Maze.width - 10, y := 0, w := 10, h := Maze.height }, ?_, ?_⟩
  · simp [Maze.barriers]
  · unfold Maze.overlaps
    dsimp only
    exact ⟨by linarith, by linarith, by linarith, by linarith⟩

/-- A box at y < 10 that vertically reaches past 0 and horizontally
meets the canvas collides with the top frame wall. -/
lemma collide_top (x y s : ℝ) (h1 : x < Maze.width) (h2 : 0 < x + s) (h3 : y < 10)
    (h4 : 0 < y + s) : Maze.collidesBarrier x y s := by
  refine ⟨{ x := 0, y := 0, w := Maze.width, h := 10 }, ?_, ?_⟩
  · simp [Maze.barriers]
  · unfold Maze.overlaps
    dsimp only
    exact ⟨by linarith, by linarith, by linarith, by linarith⟩

/-- A box reaching past height − 10 collides with the bottom frame
wall. -/
lemma collide_bottom (x y s : ℝ) (h1 : x < Maze.width) (h2 : 0 < x + s)
    (h3 : y < Maze.height) (h4 : Maze.height - 10 < y + s) : Maze.collidesBarrier x y s := by
  refine ⟨{ x := 0, y := Maze.height - 10, w := Maze.width, h := 10 }, ?_, ?_⟩
  · simp [Maze.barriers]
  · unfold Maze.overlaps
    dsimp only
    exact ⟨by linarith, by linarith, by linarith, by linarith⟩

/-- Actor safety through one frame: starting inside the frame interior
with speed at most PAC_SPEED per axis and clear of every barrier, the
moved-and-clamped actor is again clear of every barrier and keeps its
speed bound (the velocity is either kept or zeroed). -/
lemma pacStep_safe (p : Maze.Pac) (hx1 : 10 ≤ p.x)
    (hx2 : p.x ≤ Maze.width - Maze.PAC_SIZE - 10) (hy1 : 10 ≤ p.y)
    (hy2 : p.y ≤ Maze.height - Maze.PAC_SIZE - 10)
    (hdx : |p.dx| ≤ Maze.PAC_SPEED) (hdy : |p.dy| ≤ Maze.PAC_SPEED)
    (hs : ¬ Maze.collidesBarrier p.x p.y Maze.PAC_SIZE) :
    ¬ Maze.collidesBarrier (Maze.clampPac (Maze.pacMove p)).x
        (Maze.clampPac (Maze.pacMove p)).y Maze.PAC_SIZE
    ∧ |(Maze.clampPac (Maze.pacMove p)).dx| ≤ Maze.PAC_SPEED
    ∧ |(Maze.clampPac (Maze.pacMove p)).dy| ≤ Maze.PAC_SPEED := by
  obtain ⟨hdx1, hdx2⟩ := abs_le.mp hdx
  obtain ⟨hdy1, hdy2⟩ := abs_le.mp hdy
  rw [show Maze.PAC_SPEED = 3.2 from rfl] at hdx1 hdx2 hdy1 hdy2
  rw [show Maze.width = 500 from rfl, show Maze.PAC_SIZE = 34 from rfl] at hx2
  rw [show Maze.height = 500 from rfl, show Maze.PAC_SIZE = 34 from rfl] at hy2
  unfold Maze.pacMove
  by_cases hc : Maze.collidesBarrier (p.x + p.dx) (p.y + p.dy) Maze.PAC_SIZE
  · rw [if_pos hc]
    rw [clampPac_id { x := p.x, y := p.y, dx := 0, dy := 0 } hx1
      (by rw [show Maze.width = 500 from rfl, show Maze.PAC_SIZE = 34 from rfl]; linarith) hy1
      (by rw [show Maze.height = 500 from rfl, show Maze.PAC_SIZE = 34 from rfl]; linarith)]
    refine ⟨hs, ?_, ?_⟩ <;> · rw [show Maze.PAC_SPEED = 3.2 from rfl]; norm_num
  · rw [if_neg hc]
    have hq1 : 10 ≤ p.x + p.dx := by
      by_contra hlt
      push_neg at hlt
      refine hc (collide_left (p.x + p.dx) (p.y + p.dy) Maze.PAC_SIZE hlt ?_ ?_ ?_)
      · rw [show Maze.PAC_SIZE = 34 from rfl]
        linarith
      · rw [show Maze.height = 500 from rfl]
        linarith
      · rw [show Maze.PAC_SIZE = 34 from rfl]
        linarith
    have hq2 : p.x + p.dx ≤ Maze.width - Maze.PAC_SIZE - 10 := by
      rw [show Maze.width = 500 from rfl, show Maze.PAC_SIZE = 34 from rfl]
      by_contra hlt
      push_neg at hlt
      refine hc (collide_right (p.x + p.dx) (p.y + p.dy) Maze.PAC_SIZE ?_ ?_ ?_ ?_)
      · rw [show Maze.width = 500 from rfl]
        linarith
      · rw [show Maze.width = 500 from rfl, show Maze.PAC_SIZE = 34 from rfl]
        linarith
      · rw [show Maze.height = 500 from rfl]
        linarith
      · rw [show Maze.PAC_SIZE = 34 from rfl]
        linarith
    have hq3 : 10 ≤ p.y + p.dy := by
      by_contra hlt
      push_neg at hlt
      refine hc (collide_top (p.x + p.dx) (p.y + p.dy) Maze.PAC_SIZE ?_ ?_ hlt ?_)
      · rw [show Maze.width = 500 from rfl]
        linarith
      · rw [show Maze.PAC_SIZE = 34 from rfl]
        linarith
      · rw [show Maze.PAC_SIZE = 34 from rfl]
        linarith
    have hq4 : p.y + p.dy ≤ Maze.height - Maze.PAC_SIZE - 10 := by
      rw [show Maze.height = 500 from rfl, show Maze.PAC_SIZE = 34 from rfl]
      by_contra hlt
      push_neg at hlt
      refine hc (collide_bottom (p.x + p.dx) (p.y + p.dy) Maze.PAC_SIZE ?_ ?_ ?_ ?_)
      · rw [show Maze.width = 500 from rfl]
        linarith
      · rw [show Maze.PAC_SIZE = 34 from rfl]
        linarith
      · rw [show Maze.height = 500 from rfl]
        linarith
      · rw [show Maze.height = 500 from rfl, show Maze.PAC_SIZE = 34 from rfl]
        linarith
    rw [clampPac_id { x := p.x + p.dx, y := p.y + p.dy, dx := p.dx, dy := p.dy } hq1 hq2 hq3 hq4]
    exact ⟨hc, hdx, hdy⟩

/-- One frame of ghost movement never ends on a barrier: the move is
kept only when the moved-and-bounced position is barrier-free, and
otherwise reverts to the (barrier-free) pre-frame position. -/
lemma ghostMove_safe (pac : Maze.Pac) (now : ℤ) (r ang : ℝ) (g : Maze.Ghost)
    (h : ¬ Maze.collidesBarrier g.x g.y Maze.GHOST_SIZE) :
    ¬ Maze.collidesBarrier (Maze.ghostMove pac now r ang g).x
        (Maze.ghostMove pac now r ang g).y Maze.GHOST_SIZE := by
  simp only [Maze.ghostMove]
  split_ifs with h1 h2
  · exact h
  · dsimp only
    exact h
  · dsimp only
    exact h2

/-- Members of the indexed map come from members of the list. -/
lemma mem_mapWithIndex {α β : Type} {f : ℕ → α → β} :
    ∀ {k : ℕ} {l : List α} {b : β}, b ∈ Maze.mapWithIndex f k l → ∃ i, ∃ a ∈ l, b = f i a := by
  intro k l
  induction l generalizing k with
  | nil =>
      intro b hb
      simp [Maze.mapWithIndex] at hb
  | cons a t ih =>
      intro b hb
      simp only [Maze.mapWithIndex, List.mem_cons] at hb
      rcases hb with rfl | hb
      · exact ⟨k, a, List.mem_cons_self a t, rfl⟩
      · obtain ⟨i, a2, ha2, rfl⟩ := ih hb
        exact ⟨i, a2, List.mem_cons_of_mem a ha2, rfl⟩

/-- The apex capture phase only rewrites ghost timers: every ghost in
its output has the position of some input ghost. -/
lemma apexPhase_ghost_pos (pac : Maze.Pac) (a1 a2 : ℤ) (apex : Option (ℝ × ℝ)) (rAt : ℤ)
    (gs : List Maze.Ghost) (g2 : Maze.Ghost)
    (h : g2 ∈ (Maze.apexPhase pac a1 a2 apex rAt gs).2.2) :
    ∃ g ∈ gs, g2.x = g.x ∧ g2.y = g.y := by
  cases apex with
  | none => exact ⟨g2, by simpa [Maze.apexPhase] using h, rfl, rfl⟩
  | some a =>
      by_cases hh : Maze.apexHit pac a
      · simp only [Maze.apexPhase, if_pos hh] at h
        obtain ⟨g, hg, rfl⟩ := List.mem_map.mp h
        exact ⟨g, hg, rfl, rfl⟩
      · simp only [Maze.apexPhase, if_neg hh] at h
        exact ⟨g2, h, rfl, rfl⟩

/-- The ghost teleport target (the canvas center) is clear of every
barrier at ghost size. -/
lemma center_clear :
    ¬ Maze.collidesBarrier (Maze.width / 2 - Maze.GHOST_SIZE / 2)
        (Maze.height / 2 - Maze.GHOST_SIZE / 2) Maze.GHOST_SIZE := by
  rintro ⟨b, hb, hov⟩
  fin_cases hb <;>
    · simp only [Maze.overlaps, Maze.width, Maze.height, Maze.GHOST_SIZE] at hov
      norm_num at hov

/-- The collision handler never moves a ghost onto a barrier: it leaves
the position alone or teleports to the barrier-free canvas center. -/
lemma ghostCollide_safe (pac : Maze.Pac) (now : ℤ) (ang : ℝ) (g : Maze.Ghost)
    (h : ¬ Maze.collidesBarrier g.x g.y Maze.GHOST_SIZE) :
    ¬ Maze.collidesBarrier (Maze.ghostCollide pac now ang g).1.x
        (Maze.ghostCollide pac now ang g).1.y Maze.GHOST_SIZE := by
  unfold Maze.ghostCollide
  split_ifs <;> dsimp only <;>
    first
      | exact h
      | exact center_clear

/-- The point (100, 100) is clear of every barrier at ghost size. -/
lemma ghost_100_clear : ¬ Maze.collidesBarrier 100 100 Maze.GHOST_SIZE := by
  rintro ⟨b, hb, hov⟩
  fin_cases hb <;>
    · simp only [Maze.overlaps, Maze.width, Maze.height, Maze.GHOST_SIZE] at hov
      norm_num at hov

/-- The origin collides with the top frame wall at actor size. -/
lemma collides_origin_pac : Maze.collidesBarrier 0 0 Maze.PAC_SIZE := by
  refine ⟨{ x := 0, y := 0, w := Maze.width, h := 10 }, ?_, ?_⟩
  · simp [Maze.barriers]
  · unfold Maze.overlaps
    norm_num [Maze.width, Maze.PAC_SIZE]

/-- The inductive safety invariant of the maze tick: the actor is
inside the frame interior, its per-axis speed is at most PAC_SPEED,
and neither the actor box nor any ghost box overlaps a barrier. -/
def SafeState (s : Maze.State) : Prop :=
  10 ≤ s.pac.x ∧ s.pac.x ≤ Maze.width - Maze.PAC_SIZE - 10 ∧
  10 ≤ s.pac.y ∧ s.pac.y ≤ Maze.height - Maze.PAC_SIZE - 10 ∧
  |s.pac.dx| ≤ Maze.PAC_SPEED ∧ |s.pac.dy| ≤ Maze.PAC_SPEED ∧
  ¬ Maze.collidesBarrier s.pac.x s.pac.y Maze.PAC_SIZE ∧
  ∀ g ∈ s.ghosts, ¬ Maze.collidesBarrier g.x g.y Maze.GHOST_SIZE

/-- C2: one maze tick preserves the safety invariant — at the end of
the tick neither the actor box nor any pursuer box (hidden or not)
overlaps a static barrier — and an actor move into a barrier is
reverted to the pre-frame position with the velocity zeroed. -/
theorem c2_no_barrier_overlap (s : Maze.State) (now a1 a2 : ℤ) (ri : Maze.RIn)
    (h : SafeState s) :
    SafeState (Maze.tick s now a1 a2 ri)
    ∧ (∀ p : Maze.Pac, Maze.collidesBarrier (p.x + p.dx) (p.y + p.dy) Maze.PAC_SIZE →
        Maze.pacMove p = { x := p.x, y := p.y, dx := 0, dy := 0 }) := by
  obtain ⟨hx1, hx2, hy1, hy2, hdx, hdy, hpac, hg⟩ := h
  constructor
  · have hps := pacStep_safe s.pac hx1 hx2 hy1 hy2 hdx hdy hpac
    have hb := clampPac_bounds (Maze.pacMove s.pac)
    refine ⟨hb.1, hb.2.1, hb.2.2.1, hb.2.2.2, hps.2.1, hps.2.2, hps.1, ?_⟩
    intro g3 hg3
    have hg3' : g3 ∈ (Maze.mapWithIndex (fun i t => Maze.ghostCollide
        (Maze.clampPac (Maze.pacMove s.pac)) now (ri.eatAng i) t) 0
        ((Maze.apexPhase (Maze.clampPac (Maze.pacMove s.pac)) a1 a2 s.apex s.apexRespawnAt
          (Maze.mapWithIndex (fun i t => Maze.ghostMove (Maze.clampPac (Maze.pacMove s.pac))
            now (ri.r i) (ri.ang i) t) 0 s.ghosts)).2.2)).map (fun t => t.1) := hg3
    obtain ⟨t, ht, rfl⟩ := List.mem_map.mp hg3'
    obtain ⟨i, g2, hg2, rfl⟩ := mem_mapWithIndex ht
    obtain ⟨g1, hg1, hxe, hye⟩ := apexPhase_ghost_pos _ _ _ _ _ _ _ hg2
    obtain ⟨j, g0, hg0, rfl⟩ := mem_mapWithIndex hg1
    have h0 := ghostMove_safe (Maze.clampPac (Maze.pacMove s.pac)) now (ri.r j) (ri.ang j)
      g0 (hg g0 hg0)
    have h2 : ¬ Maze.collidesBarrier g2.x g2.y Maze.GHOST_SIZE := by
      rw [hxe, hye]
      exact h0
    exact ghostCollide_safe _ now _ g2 h2
  · intro p hpcol
    unfold Maze.pacMove
    rw [if_pos hpcol]

/-- A concrete safe running state with one ghost at (100, 100). -/
def c2State : Maze.State :=
  { pac := demoPac, ghosts := [Maze.Ghost.mk 100 100 2 0 0 0], cherries := [],
    apex := none, apexRespawnAt := 0, score := 0, gameOver := false, started := true }

/-- Witness for C2: the invariant holds on the concrete state, is
preserved by one tick, and a move from the origin (which collides with
the top wall) is reverted with zeroed velocity. -/
theorem c2_no_barrier_overlap_witness :
    SafeState c2State
  ∧ SafeState (Maze.tick c2State 1000 1000 1000 demoRIn)
  ∧ (Maze.collidesBarrier ((0 : ℝ) + 0) ((0 : ℝ) + 0) Maze.PAC_SIZE
      ∧ Maze.pacMove (Maze.Pac.mk 0 0 0 0) = { x := 0, y := 0, dx := 0, dy := 0 }) := by
  have hsafe : SafeState c2State := by
    refine ⟨by norm_num [c2State, demoPac],
      by norm_num [c2State, demoPac, Maze.width, Maze.PAC_SIZE],
      by norm_num [c2State, demoPac],
      by norm_num [c2State, demoPac, Maze.height, Maze.PAC_SIZE],
      by norm_num [c2State, demoPac, Maze.PAC_SPEED],
      by norm_num [c2State, demoPac, Maze.PAC_SPEED],
      by simpa [c2State, demoPac] using clear_pac_250, ?_⟩
    intro g hgm
    simp only [c2State, List.mem_singleton] at hgm
    subst hgm
    simpa using ghost_100_clear
  have horigin : Maze.collidesBarrier ((0 : ℝ) + 0) ((0 : ℝ) + 0) Maze.PAC_SIZE := by
    simpa using collides_origin_pac
  exact ⟨hsafe,
    (c2_no_barrier_overlap c2State 1000 1000 1000 demoRIn hsafe).1,
    horigin,
    (c2_no_barrier_overlap c2State 1000 1000 1000 demoRIn hsafe).2 (Maze.Pac.mk 0 0 0 0) horigin⟩
